import Mathlib

/-!
Verification of the lambdachine VM core against its specification.

This file shallowly embeds the object model (`src/vm/objects.hh`), the
configuration constants (`src/vm/config.hh`) and the Capability
interpreter/recorder interface (capability header) in Lean 4, and proves
the spec's testable properties about them.  Components whose
implementation is not part of the visible sources (the hot-counter
policy, the interpreter loop, the memory manager's slow path, the trace
recorder) are modelled from the specification's own words; such
definitions carry a doc comment starting with `Modelled from the spec:`.
-/

namespace Lambdachine

/-- The eleven closure types, from the `CTDEF` table in `objects.hh`
(enum `_ClosureType`). -/
inductive ClosureType where
  | INVALID_OBJECT
  | CONSTR
  | FUN
  | THUNK
  | IND
  | CAF
  | PAP
  | AP_CONT
  | STATIC_IND
  | UPDATE_FRAME
  | BLACKHOLE
deriving DecidableEq, Repr

/-- Numeric value of each enum constant, in declaration order. -/
def ctIndex : ClosureType → Nat
  | .INVALID_OBJECT => 0
  | .CONSTR => 1
  | .FUN => 2
  | .THUNK => 3
  | .IND => 4
  | .CAF => 5
  | .PAP => 6
  | .AP_CONT => 7
  | .STATIC_IND => 8
  | .UPDATE_FRAME => 9
  | .BLACKHOLE => 10

/-- Constant `N_CLOSURE_TYPES`: number of closure types. -/
def N_CLOSURE_TYPES : Nat := 11

/-- Closure flag `CF_HNF`, head normal form (`1<<0`). -/
def CF_HNF : Nat := 1 <<< 0

/-- Closure flag `CF_THU`, thunk (`1<<1`). -/
def CF_THU : Nat := 1 <<< 1

/-- Closure flag `CF_IND`, indirection (`1<<2`). -/
def CF_IND : Nat := 1 <<< 2

/-- The per-type closure flag table.  In the source this is the array
`closureFlags[]`, generated from the `CTDEF` macro table in
`objects.hh`: `INVALID_OBJECT ↦ ___`, `CONSTR ↦ HNF`, `FUN ↦ HNF`,
`THUNK ↦ THU`, `IND ↦ IND`, `CAF ↦ THU`, `PAP ↦ HNF`, `AP_CONT ↦ HNF`,
`STATIC_IND ↦ IND`, `UPDATE_FRAME ↦ ___`, `BLACKHOLE ↦ ___`.
Per the spec's design notes it is a pure lookup keyed by the closure
type tag, outside any per-instance mutable state. -/
def closureFlags : ClosureType → Nat
  | .INVALID_OBJECT => 0
  | .CONSTR => CF_HNF
  | .FUN => CF_HNF
  | .THUNK => CF_THU
  | .IND => CF_IND
  | .CAF => CF_THU
  | .PAP => CF_HNF
  | .AP_CONT => CF_HNF
  | .STATIC_IND => CF_IND
  | .UPDATE_FRAME => 0
  | .BLACKHOLE => 0

/-- The `ClosureInfo` union of `objects.hh`: a pointers/non-pointers
pair, a raw stack-frame bitmap, or a selector offset. -/
inductive ClosureInfo where
  | payload (ptrs nptrs : Nat)
  | bitmap (b : Nat)
  | selectorOffset (o : Nat)
deriving DecidableEq, Repr

/-- Class `InfoTable`: shared, immutable descriptor of a closure shape
(`objects.hh`).  Fields follow the C++ class: layout descriptor, closure
type tag, size, constructor tag or SRT bitmap, and a display name. -/
structure InfoTable where
  layout_ : ClosureInfo
  type_ : ClosureType
  size_ : Nat
  tagOrBitmap_ : Nat
  name_ : String
deriving DecidableEq, Repr

/-- Method `InfoTable::type()`. -/
def InfoTable.type (t : InfoTable) : ClosureType := t.type_

/-- Constant `InfoTable::kHasCodeBitmap`: bit set for the closure types whose
info table embeds a bytecode container. -/
def kHasCodeBitmap : Nat :=
  (1 <<< ctIndex .FUN) ||| (1 <<< ctIndex .THUNK) ||| (1 <<< ctIndex .CAF) |||
  (1 <<< ctIndex .AP_CONT) ||| (1 <<< ctIndex .UPDATE_FRAME) ||| (1 <<< ctIndex .PAP)

/-- Method `InfoTable::hasCode()`. -/
def InfoTable.hasCode (t : InfoTable) : Bool :=
  kHasCodeBitmap &&& (1 <<< ctIndex t.type) != 0

/-- Struct `_Closure` of `objects.hh`: a header holding the info-table
reference, followed by a payload of machine words.  This structural
model is used where pointer identity and nullability do not matter; the
address-level model `RawClosure` below covers the initialization
claims. -/
structure Closure where
  info_ : InfoTable
  payload_ : List Nat
deriving DecidableEq, Repr

/-- Method `_Closure::info()`. -/
def Closure.info (c : Closure) : InfoTable := c.info_

/-- Method `_Closure::isHNF()`: `closureFlags[info()->type()] & CF_HNF`,
converted to `bool`. -/
def Closure.isHNF (c : Closure) : Bool :=
  closureFlags c.info.type &&& CF_HNF != 0

/-- Method `_Closure::isIndirection()`: `closureFlags[info()->type()] & CF_IND`,
converted to `bool`. -/
def Closure.isIndirection (c : Closure) : Bool :=
  closureFlags c.info.type &&& CF_IND != 0

/-- Method `_Closure::tag()`: the constructor tag (meaningful on `CONSTR`). -/
def Closure.tag (c : Closure) : Nat := c.info.tagOrBitmap_

/-- A sample constructor info table, used to instantiate theorems at
concrete closures. -/
def conInfoTableEx : InfoTable :=
  { layout_ := ClosureInfo.payload 0 1
  , type_ := ClosureType.CONSTR
  , size_ := 1
  , tagOrBitmap_ := 1
  , name_ := "Con" }

/-- A sample constructor closure. -/
def conClosureEx : Closure :=
  { info_ := conInfoTableEx, payload_ := [42] }

/-- A second sample closure sharing `conClosureEx`'s type tag. -/
def conClosureEx2 : Closure :=
  { info_ := { conInfoTableEx with tagOrBitmap_ := 2 }, payload_ := [7, 8] }

/-- The `LitType` enumeration of `objects.hh`: tags for the entries of a
bytecode container's literal pool. -/
inductive LitType where
  | LIT_INT
  | LIT_STRING
  | LIT_CHAR
  | LIT_WORD
  | LIT_FLOAT
  | LIT_CLOSURE
  | LIT_INFO
  | LIT_PC
deriving DecidableEq, Repr

/-- Struct `_Code` of `objects.hh`: the per-closure bytecode container.
The `code` field is the address of the instruction stream; the value `0`
encodes a NULL `BcIns*`.  The declared invariants are
`framesize >= arity` and `code != NULL`. -/
structure Code where
  framesize : Nat
  arity : Nat
  sizecode : Nat
  sizelits : Nat
  sizebitmaps : Nat
  lits : List Nat
  littypes : List LitType
  code : Nat
deriving DecidableEq, Repr

/-- Modelled from the spec: the bytecode loader is out of the visible
core (only the `Code` container it fills in is, together with its two
declared invariants).  Per the external-interface contract, a
well-formed loader hands the core only fully-formed containers with
`framesize >= arity` and a non-null instruction pointer; malformed input
is a loader-side contract violation and is rejected at load time rather
than passed on. -/
def loadCode (framesize arity sizecode sizelits sizebitmaps : Nat)
    (lits : List Nat) (littypes : List LitType) (codeAddr : Nat) : Option Code :=
  if arity ≤ framesize ∧ codeAddr ≠ 0 then
    some { framesize := framesize
         , arity := arity
         , sizecode := sizecode
         , sizelits := sizelits
         , sizebitmaps := sizebitmaps
         , lits := lits
         , littypes := littypes
         , code := codeAddr }
  else
    none

/-! ### Address-level closure model

For the claims about half-initialized closures the info-table reference
must be able to be absent, as the C++ `InfoTable*` can be NULL.  So here
a closure header stores an info-table address, with `0` encoding NULL,
exactly as `ClosureHeader` of `objects.hh` stores a pointer. -/

/-- Class `ClosureHeader` of `objects.hh`, at address level: `info_` is the
`InfoTable*` value, with `0` encoding a NULL pointer. -/
structure RawClosureHeader where
  info_ : Nat
deriving DecidableEq, Repr

/-- A heap closure at address level: header plus payload words. -/
structure RawClosure where
  header_ : RawClosureHeader
  payload_ : List Nat
deriving DecidableEq, Repr

/-- Static method `_Closure::initHeader(c, info)`: sets the header's info pointer to
the given info table (`objects.hh` lines 142-144). -/
def initHeader (info : Nat) : RawClosureHeader := { info_ := info }

/-- Modelled from the spec: the interpreter's allocation path (not among
the visible sources) creates each closure by obtaining space from the
bump allocator and setting its header via `initHeader` together with the
allocation, so the closure enters the heap with its header already
set. -/
def allocClosure (heap : List RawClosure) (info : Nat) (payload : List Nat) :
    List RawClosure :=
  heap ++ [{ header_ := initHeader info, payload_ := payload }]

/-- A heap built, from empty, by a sequence of allocation requests
(info-table address, payload). -/
def buildHeap (reqs : List (Nat × List Nat)) : List RawClosure :=
  reqs.foldl (fun h r => allocClosure h r.1 r.2) []

/-! ### Memory manager: bump allocator fast/slow split -/

/-- The borrowed allocator registers: current heap pointer and heap
limit (`char *heap, *hplim` in the interpreter; addresses as `Nat`). -/
structure AllocState where
  hp : Nat
  hpLim : Nat
deriving DecidableEq, Repr

/-- Modelled from the spec: `MemoryManager::bumpAllocatorFullNoGC` (its
body is not among the visible sources) — the O(1), side-effect-free fast
check: given the current heap pointer and heap limit, report whether the
bump region cannot hold `n` more bytes, without moving memory and
without collecting. -/
def bumpAllocatorFullNoGC (hp hpLim n : Nat) : Bool :=
  decide (hpLim < hp + n)

/-- Method `Capability::heapCheckFailQuick`: delegates to the memory manager's
`bumpAllocatorFullNoGC` on the borrowed heap pointer and limit
(capability header, lines 109-113). -/
def heapCheckFailQuick (s : AllocState) (n : Nat) : Bool :=
  bumpAllocatorFullNoGC s.hp s.hpLim n

/-- Modelled from the spec: the slow allocation path — may run a full
collection and relocate the heap, returning an updated heap
pointer/limit with room for the request.  Concretely modelled as a
fresh region of sufficient size; the claims depend only on when this
path is entered, not on its exact result. -/
def slowPathAlloc (s : AllocState) (n : Nat) : AllocState :=
  { hp := 0, hpLim := max s.hpLim n }

/-- Result of one interpreter allocation: the address handed out, the
allocator registers afterwards, and whether the slow path ran. -/
structure AllocOutcome where
  addr : Nat
  after : AllocState
  usedSlowPath : Bool
deriving DecidableEq, Repr

/-- Modelled from the spec: every allocation instruction consults the
fast check first; only on failure does it route through the slow
(collecting) path, and in either case it then bumps the heap pointer. -/
def allocate (s : AllocState) (n : Nat) : AllocOutcome :=
  if heapCheckFailQuick s n then
    let s2 := slowPathAlloc s n
    { addr := s2.hp, after := { hp := s2.hp + n, hpLim := s2.hpLim }, usedSlowPath := true }
  else
    { addr := s.hp, after := { hp := s.hp + n, hpLim := s.hpLim }, usedSlowPath := false }

/-! ### Capability: exit codes, dispatch tables, hot counters -/

/-- Enum `Capability::InterpExitCode` (capability header, lines 60-65): the
interpreter's internal exit codes. -/
inductive InterpExitCode where
  | kInterpOk
  | kInterpOutOfSteps
  | kInterpStackOverflow
  | kInterpUnimplemented
deriving DecidableEq, Repr

/-- How `Capability::eval` surfaces an interpreter exit to its caller:
either a boolean result, or (never, by construction of the reporting
path) a language-level exception or process termination. -/
inductive EvalOutcome where
  | result (b : Bool)
  | languageException
  | processTermination
deriving DecidableEq, Repr

/-- Modelled from the spec: `Capability::eval` (body not among the
visible sources) runs the interpreter and reports the resulting
`InterpExitCode` to the caller as a boolean — `true` exactly for the
clean stop `kInterpOk`, `false` for every other code; it never raises a
language-level exception and never terminates the process. -/
def evalReport (c : InterpExitCode) : EvalOutcome :=
  EvalOutcome.result (decide (c = InterpExitCode.kInterpOk))

/-- The Capability's interpreter states `STATE_INTERP` / `STATE_RECORD`
(capability header, lines 43-46). -/
inductive CapMode where
  | STATE_INTERP
  | STATE_RECORD
deriving DecidableEq, Repr

/-- The three dispatch tables held by the Capability (capability header,
lines 88-91): normal interpretation, recording, single-step debug. -/
inductive DispatchTable where
  | dispatch_normal
  | dispatch_record
  | dispatch_single_step
deriving DecidableEq, Repr

/-- The Capability's mode-related state: the latched (requested) state,
the single-step debug flag, and the currently active dispatch table. -/
structure CapSM where
  latched : CapMode
  singleStepFlag : Bool
  active : DispatchTable
deriving DecidableEq, Repr

/-- Method `Capability::setState` (capability header, lines 48-50): latches the
requested interpreter state; per its own comment it requires executing a
SYNC instruction to take effect, so the active dispatch table is left
untouched here. -/
def setState (s : CapSM) (m : CapMode) : CapSM :=
  { s with latched := m }

/-- Modelled from the spec: the dispatch table selected for a state plus
the debug flag — single-step when debugging, otherwise the normal table
for `STATE_INTERP` and the recording table for `STATE_RECORD`. -/
def selectDispatch (m : CapMode) (debug : Bool) : DispatchTable :=
  if debug then DispatchTable.dispatch_single_step
  else
    match m with
    | CapMode.STATE_INTERP => DispatchTable.dispatch_normal
    | CapMode.STATE_RECORD => DispatchTable.dispatch_record

/-- Bytecode instructions as the dispatch-synchronization claims see
them: the designated synchronization instruction, or anything else. -/
inductive SyncInstr where
  | SYNC
  | OTHER (op : Nat)
deriving DecidableEq, Repr

/-- Modelled from the spec: one instruction dispatched by the
interpreter loop, viewed through its effect on the dispatch-table
state.  Only the designated synchronization instruction applies the
latched state; every other instruction leaves the active table as it
is. -/
def stepInstr (s : CapSM) (i : SyncInstr) : CapSM :=
  match i with
  | SyncInstr.SYNC => { s with active := selectDispatch s.latched s.singleStepFlag }
  | SyncInstr.OTHER _ => s

/-- Run a sequence of instructions through `stepInstr`. -/
def runInstrs (s : CapSM) : List SyncInstr → CapSM
  | [] => s
  | i :: is => runInstrs (stepInstr s i) is

/-- How many of the three dispatch tables are active in a state. -/
def activeTableCount (s : CapSM) : Nat :=
  (if s.active = DispatchTable.dispatch_normal then 1 else 0)
  + (if s.active = DispatchTable.dispatch_record then 1 else 0)
  + (if s.active = DispatchTable.dispatch_single_step then 1 else 0)

/-- Constant `HOT_SIDE_EXIT_THRESHOLD` from `config.hh` line 33: the configured
hot-branch threshold. -/
def HOT_SIDE_EXIT_THRESHOLD : Nat := 7

/-- Type `HotCounters` as owned by the Capability (`counters_`): the
per-branch-target execution tallies together with the configured
threshold. -/
structure HotCounters where
  threshold : Nat
  counts : Nat → Nat

/-- Fresh hot counters: every anchor's tally is zero. -/
def HotCounters.freshHC (t : Nat) : HotCounters :=
  { threshold := t, counts := fun _ => 0 }

/-- Modelled from the spec: control reaching a branch anchor.  While in
`STATE_INTERP` the anchor's tally is incremented on each arrival; once
the tally has reached the threshold, the next arrival starts recording
instead (returned as the boolean).  Outside `STATE_INTERP` the counters
are not touched. -/
def arrivalAt (hc : HotCounters) (state : CapMode) (a : Nat) : HotCounters × Bool :=
  match state with
  | CapMode.STATE_RECORD => (hc, false)
  | CapMode.STATE_INTERP =>
    if hc.threshold ≤ hc.counts a then
      (hc, true)
    else
      ({ hc with counts := fun x => if x = a then hc.counts x + 1 else hc.counts x }, false)

/-- Iterated arrivals: `n` successive arrivals at anchor `a` under pure interpretation. -/
def arrivalsN (hc : HotCounters) (a : Nat) : Nat → HotCounters
  | 0 => hc
  | n + 1 => (arrivalAt (arrivalsN hc a n) CapMode.STATE_INTERP a).1

/-! ### Trace recording -/

/-- Instructions as the recorder sees them: a branch back to some
target, a recordable straight-line instruction, or an instruction
outside the recordable subset. -/
inductive RInstr where
  | branchTo (target : Nat)
  | simple (op : Nat)
  | unsupported (op : Nat)
deriving DecidableEq, Repr

/-- The two ways a recording episode can end: a closed trace (execution
returned to the anchor), or an abort (an unrecordable instruction was
hit). -/
inductive RecOutcome where
  | closedTrace (trace : List RInstr)
  | aborted
deriving DecidableEq, Repr

/-- The Jit-side state the recording claims observe: the fragment
installed per anchor (if any) and the per-anchor hot counters. -/
structure JitState where
  fragments : Nat → Option (List RInstr)
  counters : Nat → Nat

/-- Install a compiled fragment for an anchor. -/
def installFragment (js : JitState) (anchor : Nat) (tr : List RInstr) : JitState :=
  { js with fragments := fun a => if a = anchor then some tr else js.fragments a }

/-- Reset the hot counter of an anchor to zero. -/
def resetCounter (js : JitState) (anchor : Nat) : JitState :=
  { js with counters := fun a => if a = anchor then 0 else js.counters a }

/-- Modelled from the spec: the recording loop.  Each executed
instruction is appended to the in-progress trace; a branch back to the
anchor closes the trace; an instruction outside the recordable subset
aborts.  `none` means the episode did not finish within the given
instruction stream. -/
def recordLoop (anchor : Nat) (acc : List RInstr) : List RInstr → Option RecOutcome
  | [] => none
  | i :: rest =>
    match i with
    | RInstr.branchTo t =>
      if t = anchor then some (RecOutcome.closedTrace (RInstr.branchTo t :: acc).reverse)
      else recordLoop anchor (RInstr.branchTo t :: acc) rest
    | RInstr.simple op => recordLoop anchor (RInstr.simple op :: acc) rest
    | RInstr.unsupported _ => some RecOutcome.aborted

/-- Modelled from the spec: a whole recording episode and its effect on
the Jit state (`Capability::finishRecording` and the abort path).  A
closed trace installs a fragment at the anchor; an abort discards the
partial trace — installing nothing — and resets the anchor's hot
counter to zero. -/
def recordEpisode (js : JitState) (anchor : Nat) (instrs : List RInstr) :
    Option (RecOutcome × JitState) :=
  match recordLoop anchor [] instrs with
  | none => none
  | some (RecOutcome.closedTrace tr) =>
    some (RecOutcome.closedTrace tr, installFragment js anchor tr)
  | some RecOutcome.aborted => some (RecOutcome.aborted, resetCounter js anchor)

/-! ### Thunk forcing and update-in-place -/

/-- A heap cell as the thunk-update claims observe it: a thunk whose
code computes a given value, an indirection updated to its final value,
or a constructor already in head normal form. -/
inductive EvalCell where
  | thunkCell (compute : Nat)
  | indCell (v : Nat)
  | conCell (v : Nat)
deriving DecidableEq, Repr

/-- The closure type tag of a cell's current header. -/
def cellType : EvalCell → ClosureType
  | EvalCell.thunkCell _ => ClosureType.THUNK
  | EvalCell.indCell _ => ClosureType.IND
  | EvalCell.conCell _ => ClosureType.CONSTR

/-- The value a cell denotes (for a thunk: the value its code computes). -/
def cellValue : EvalCell → Nat
  | EvalCell.thunkCell v => v
  | EvalCell.indCell v => v
  | EvalCell.conCell v => v

/-- Write one cell of an evaluation heap. -/
def setCell (h : Nat → EvalCell) (a : Nat) (c : EvalCell) : Nat → EvalCell :=
  fun x => if x = a then c else h x

/-- Result of forcing a closure: the heap afterwards, the value, and
how many times the underlying computation ran. -/
structure ForceResult where
  heapAfter : Nat → EvalCell
  result : Nat
  computations : Nat

/-- Modelled from the spec: forcing a closure (the interpreter's EVAL
path, not among the visible sources).  The dispatch is by the source's
flag table: an indirection (`CF_IND` set) or a head-normal-form closure
(`CF_HNF` set) is returned without work; otherwise the cell is a thunk,
whose code runs once and whose header is then replaced via
`_Closure::setInfo` by an indirection to the result — the update in
place. -/
def force (h : Nat → EvalCell) (a : Nat) : ForceResult :=
  let c := h a
  if closureFlags (cellType c) &&& CF_IND != 0 then
    { heapAfter := h, result := cellValue c, computations := 0 }
  else if closureFlags (cellType c) &&& CF_HNF != 0 then
    { heapAfter := h, result := cellValue c, computations := 0 }
  else
    { heapAfter := setCell h a (EvalCell.indCell (cellValue c))
    , result := cellValue c
    , computations := 1 }

/-- A sample Jit state with no installed fragments and hot counters. -/
def jitStateEx : JitState :=
  { fragments := fun _ => none, counters := fun _ => 7 }

/-- A sample evaluation heap consisting of thunks computing 42. -/
def thunkHeapEx : Nat → EvalCell := fun _ => EvalCell.thunkCell 42

/-- A sample Capability mode state in plain interpretation. -/
def capSMEx : CapSM :=
  { latched := CapMode.STATE_INTERP
  , singleStepFlag := false
  , active := DispatchTable.dispatch_normal }

/-- A sample Code container as produced by the loader. -/
def loadedCodeEx : Code :=
  { framesize := 2, arity := 1, sizecode := 3, sizelits := 0, sizebitmaps := 0
  , lits := [], littypes := [], code := 5 }

/-! ## Helper lemmas -/

/-- Folding well-formed allocation requests over a heap of
non-null-header closures yields only non-null-header closures. -/
theorem allocFold_info_nonnull (reqs : List (Nat × List Nat)) :
    ∀ h0 : List RawClosure,
      (∀ c ∈ h0, c.header_.info_ ≠ 0) →
      (∀ r ∈ reqs, r.1 ≠ 0) →
      ∀ c ∈ reqs.foldl (fun h r => allocClosure h r.1 r.2) h0, c.header_.info_ ≠ 0 := by
  induction reqs with
  | nil =>
    intro h0 hbase _ c hc
    exact hbase c hc
  | cons r rest ih =>
    intro h0 hbase hreqs c hc
    simp only [List.foldl_cons] at hc
    refine ih (allocClosure h0 r.1 r.2) ?_ ?_ c hc
    · intro c2 hc2
      unfold allocClosure at hc2
      rcases List.mem_append.mp hc2 with hmem | hmem
      · exact hbase c2 hmem
      · have hc3 : c2 = { header_ := initHeader r.1, payload_ := r.2 } :=
          List.mem_singleton.mp hmem
        rw [hc3]
        exact hreqs r (List.mem_cons_self r rest)
    · intro r2 hr2
      exact hreqs r2 (List.mem_cons_of_mem r hr2)

/-- Running instructions that contain no SYNC leaves the active
dispatch table untouched. -/
theorem runInstrs_active_no_sync (instrs : List SyncInstr) :
    ∀ s : CapSM, (∀ i ∈ instrs, i ≠ SyncInstr.SYNC) →
      (runInstrs s instrs).active = s.active := by
  induction instrs with
  | nil => intro s _; rfl
  | cons i rest ih =>
    intro s hn
    have hi : i ≠ SyncInstr.SYNC := hn i (List.mem_cons_self i rest)
    have hstep : stepInstr s i = s := by
      cases i with
      | SYNC => exact absurd rfl hi
      | OTHER op => rfl
    show (runInstrs (stepInstr s i) rest).active = s.active
    rw [hstep]
    exact ih s (fun j hj => hn j (List.mem_cons_of_mem i hj))

/-- After `k ≤ t` arrivals at anchor `a` on fresh counters with
threshold `t`, the threshold is unchanged and the tally is exactly
`k`. -/
theorem arrivalsN_counts (t a : Nat) :
    ∀ k, k ≤ t →
      (arrivalsN (HotCounters.freshHC t) a k).threshold = t
      ∧ (arrivalsN (HotCounters.freshHC t) a k).counts a = k := by
  intro k
  induction k with
  | zero => intro _; exact ⟨rfl, rfl⟩
  | succ n ih =>
    intro hk
    obtain ⟨hth, hcnt⟩ := ih (Nat.le_of_succ_le hk)
    have hlt : ¬ t ≤ n := Nat.not_le.mpr (Nat.lt_of_succ_le hk)
    have hstep : arrivalAt (arrivalsN (HotCounters.freshHC t) a n) CapMode.STATE_INTERP a
        = ({ arrivalsN (HotCounters.freshHC t) a n with
              counts := fun x =>
                if x = a then (arrivalsN (HotCounters.freshHC t) a n).counts x + 1
                else (arrivalsN (HotCounters.freshHC t) a n).counts x }, false) := by
      simp only [arrivalAt]
      rw [hth, hcnt, if_neg hlt]
    constructor
    · show (arrivalAt (arrivalsN (HotCounters.freshHC t) a n) CapMode.STATE_INTERP a).1.threshold = t
      rw [hstep]
      exact hth
    · show (arrivalAt (arrivalsN (HotCounters.freshHC t) a n) CapMode.STATE_INTERP a).1.counts a = n + 1
      rw [hstep]
      simp [hcnt]

/-- Forcing a cell that currently holds a thunk runs its computation
once and updates the cell in place to an indirection to the result. -/
theorem force_eq_thunk (h : Nat → EvalCell) (a w : Nat)
    (hc : h a = EvalCell.thunkCell w) :
    force h a
      = { heapAfter := setCell h a (EvalCell.indCell w), result := w, computations := 1 } := by
  have hIND : (closureFlags (cellType (EvalCell.thunkCell w)) &&& CF_IND != 0) = false := by
    show (closureFlags ClosureType.THUNK &&& CF_IND != 0) = false
    decide
  have hHNF : (closureFlags (cellType (EvalCell.thunkCell w)) &&& CF_HNF != 0) = false := by
    show (closureFlags ClosureType.THUNK &&& CF_HNF != 0) = false
    decide
  simp only [force, hc, hIND, hHNF, Bool.false_eq_true, if_false, cellValue]

/-- Forcing a cell that currently holds an indirection returns the
stored value with no computation and no heap change. -/
theorem force_eq_ind (h : Nat → EvalCell) (a w : Nat)
    (hc : h a = EvalCell.indCell w) :
    force h a = { heapAfter := h, result := w, computations := 0 } := by
  have hIND : (closureFlags (cellType (EvalCell.indCell w)) &&& CF_IND != 0) = true := by
    show (closureFlags ClosureType.IND &&& CF_IND != 0) = true
    decide
  simp only [force, hc, hIND, if_true, cellValue]

/-! ## Claim theorems -/

/-- C1: for every closure `c`, `isHNF(c)` is exactly
`closureFlags[type(c)] & CF_HNF` and `isIndirection(c)` is exactly
`closureFlags[type(c)] & CF_IND` (as booleans); the per-type flag
assignment is fixed solely by the type tag — HNF for constructor,
function, partial application and application continuation, the thunk
flag for thunk and CAF, the indirection flag for indirection and static
indirection, no flags for invalid, update frame and blackhole — and is
never per-instance: two closures with the same type tag always agree on
both predicates. -/
theorem isHNF_isIndirection_pure_table_lookup (c : Closure) :
    (c.isHNF = (closureFlags c.info.type &&& CF_HNF != 0))
    ∧ (c.isIndirection = (closureFlags c.info.type &&& CF_IND != 0))
    ∧ (closureFlags ClosureType.CONSTR = CF_HNF
        ∧ closureFlags ClosureType.FUN = CF_HNF
        ∧ closureFlags ClosureType.PAP = CF_HNF
        ∧ closureFlags ClosureType.AP_CONT = CF_HNF
        ∧ closureFlags ClosureType.THUNK = CF_THU
        ∧ closureFlags ClosureType.CAF = CF_THU
        ∧ closureFlags ClosureType.IND = CF_IND
        ∧ closureFlags ClosureType.STATIC_IND = CF_IND
        ∧ closureFlags ClosureType.INVALID_OBJECT = 0
        ∧ closureFlags ClosureType.UPDATE_FRAME = 0
        ∧ closureFlags ClosureType.BLACKHOLE = 0)
    ∧ (∀ c2 : Closure, c2.info.type = c.info.type →
        c2.isHNF = c.isHNF ∧ c2.isIndirection = c.isIndirection) := by
  refine ⟨rfl, rfl, ⟨rfl, rfl, rfl, rfl, rfl, rfl, rfl, rfl, rfl, rfl, rfl⟩, ?_⟩
  intro c2 hty
  constructor
  · show (closureFlags c2.info.type &&& CF_HNF != 0)
        = (closureFlags c.info.type &&& CF_HNF != 0)
    rw [hty]
  · show (closureFlags c2.info.type &&& CF_IND != 0)
        = (closureFlags c.info.type &&& CF_IND != 0)
    rw [hty]

/-- Witness for C1 at concrete constructor closures. -/
theorem isHNF_isIndirection_pure_table_lookup_witness :
    conClosureEx2.isHNF = conClosureEx.isHNF
    ∧ conClosureEx2.isIndirection = conClosureEx.isIndirection :=
  (isHNF_isIndirection_pure_table_lookup conClosureEx).2.2.2 conClosureEx2 rfl

/-- C10: every closure type's fixed flag set contains at most one of
`CF_HNF`, `CF_THU`, `CF_IND`; consequently `isHNF` and `isIndirection`
are never both true of the same closure. -/
theorem closure_flags_mutually_exclusive (c : Closure) :
    (∀ t : ClosureType,
      (if closureFlags t &&& CF_HNF != 0 then 1 else 0)
      + (if closureFlags t &&& CF_THU != 0 then 1 else 0)
      + (if closureFlags t &&& CF_IND != 0 then 1 else 0) ≤ 1)
    ∧ (c.isHNF = true → c.isIndirection = false)
    ∧ (c.isIndirection = true → c.isHNF = false) := by
  refine ⟨?_, ?_, ?_⟩
  · intro t
    cases t <;> decide
  · simp only [Closure.isHNF, Closure.isIndirection]
    cases c.info.type <;> decide
  · simp only [Closure.isHNF, Closure.isIndirection]
    cases c.info.type <;> decide

/-- Witness for C10 at a concrete constructor closure. -/
theorem closure_flags_mutually_exclusive_witness :
    conClosureEx.isHNF = true ∧ conClosureEx.isIndirection = false :=
  ⟨by decide, (closure_flags_mutually_exclusive conClosureEx).2.1 (by decide)⟩

/-- C8: every `Code` container produced by the (well-formed) loader
satisfies `framesize ≥ arity` and has a non-null instruction pointer. -/
theorem loadCode_invariants (framesize arity sizecode sizelits sizebitmaps : Nat)
    (lits : List Nat) (littypes : List LitType) (codeAddr : Nat) (c : Code)
    (h : loadCode framesize arity sizecode sizelits sizebitmaps lits littypes codeAddr
          = some c) :
    c.arity ≤ c.framesize ∧ c.code ≠ 0 := by
  unfold loadCode at h
  split at h
  · rename_i hw
    cases h
    exact ⟨hw.1, hw.2⟩
  · cases h

/-- Witness for C8 at a concrete loaded container. -/
theorem loadCode_invariants_witness :
    loadedCodeEx.arity ≤ loadedCodeEx.framesize ∧ loadedCodeEx.code ≠ 0 :=
  loadCode_invariants 2 1 3 0 0 [] [] 5 loadedCodeEx (by decide)

/-- C7: `initHeader` sets the header's info pointer to exactly the given
info table, and every closure of a heap built by allocations whose info
tables are non-null has a non-null info pointer — no closure is ever
observable with a null or missing info pointer. -/
theorem closures_never_half_initialized (reqs : List (Nat × List Nat))
    (hreqs : ∀ r ∈ reqs, r.1 ≠ 0) :
    (∀ info, (initHeader info).info_ = info)
    ∧ ∀ c ∈ buildHeap reqs, c.header_.info_ ≠ 0 := by
  constructor
  · intro info; rfl
  · intro c hc
    exact allocFold_info_nonnull reqs [] (by intro c2 hc2; cases hc2) hreqs c hc

/-- Witness for C7 on a concrete two-allocation heap. -/
theorem closures_never_half_initialized_witness :
    (initHeader 3).info_ = 3
    ∧ ({ header_ := initHeader 1, payload_ := [0] } : RawClosure).header_.info_ ≠ 0 :=
  ⟨(closures_never_half_initialized [(1, [0]), (2, [])] (by decide)).1 3,
   (closures_never_half_initialized [(1, [0]), (2, [])] (by decide)).2
     { header_ := initHeader 1, payload_ := [0] } (by decide)⟩

/-- C4: the fast heap check delegates to the memory manager's
`bumpAllocatorFullNoGC` and is a pure function of the heap
pointer/limit; an allocation takes the slow path exactly when the fast
check reports insufficient space, and on the fast path the heap limit,
the handed-out address and the bumped heap pointer all come from the
unchanged allocator state — no memory moves. -/
theorem heap_check_fast_slow_routing (s : AllocState) (n : Nat) :
    heapCheckFailQuick s n = bumpAllocatorFullNoGC s.hp s.hpLim n
    ∧ (allocate s n).usedSlowPath = heapCheckFailQuick s n
    ∧ (heapCheckFailQuick s n = false →
        (allocate s n).usedSlowPath = false
        ∧ (allocate s n).after.hpLim = s.hpLim
        ∧ (allocate s n).addr = s.hp
        ∧ (allocate s n).after.hp = s.hp + n)
    ∧ (heapCheckFailQuick s n = true → (allocate s n).usedSlowPath = true) := by
  refine ⟨rfl, ?_, ?_, ?_⟩
  · cases h : heapCheckFailQuick s n <;> simp [allocate, h]
  · intro h; simp [allocate, h]
  · intro h; simp [allocate, h]

/-- Witness for C4: a fast-path allocation and a slow-path allocation. -/
theorem heap_check_fast_slow_routing_witness :
    ((allocate { hp := 0, hpLim := 10 } 4).usedSlowPath = false
      ∧ (allocate { hp := 0, hpLim := 10 } 4).after.hpLim = 10
      ∧ (allocate { hp := 0, hpLim := 10 } 4).addr = 0
      ∧ (allocate { hp := 0, hpLim := 10 } 4).after.hp = 0 + 4)
    ∧ (allocate { hp := 8, hpLim := 10 } 4).usedSlowPath = true :=
  ⟨(heap_check_fast_slow_routing { hp := 0, hpLim := 10 } 4).2.2.1 (by decide),
   (heap_check_fast_slow_routing { hp := 8, hpLim := 10 } 4).2.2.2 (by decide)⟩

/-- C3: `eval` reports its result as a boolean that is `true` exactly
when the interpreter exit code is the clean stop `kInterpOk`; each of
the three failure codes is reported as `false`, and no exit code is ever
reported as a language-level exception or a process termination. -/
theorem eval_reports_boolean (c : InterpExitCode) :
    evalReport c = EvalOutcome.result (decide (c = InterpExitCode.kInterpOk))
    ∧ evalReport InterpExitCode.kInterpOk = EvalOutcome.result true
    ∧ evalReport InterpExitCode.kInterpOutOfSteps = EvalOutcome.result false
    ∧ evalReport InterpExitCode.kInterpStackOverflow = EvalOutcome.result false
    ∧ evalReport InterpExitCode.kInterpUnimplemented = EvalOutcome.result false
    ∧ (∀ c2 : InterpExitCode, ∃ b : Bool, evalReport c2 = EvalOutcome.result b) := by
  refine ⟨rfl, by decide, by decide, by decide, by decide, ?_⟩
  intro c2
  exact ⟨decide (c2 = InterpExitCode.kInterpOk), rfl⟩

/-- C5: `setState` only latches — the active dispatch table is
unchanged; it stays unchanged across any instruction sequence free of
the synchronization instruction; executing the synchronization
instruction makes the table selected by the latched state active; and at
every point exactly one of the three dispatch tables is active. -/
theorem setState_deferred_dispatch (s : CapSM) (m : CapMode) (instrs : List SyncInstr) :
    (setState s m).active = s.active
    ∧ ((∀ i ∈ instrs, i ≠ SyncInstr.SYNC) →
        (runInstrs (setState s m) instrs).active = s.active)
    ∧ (stepInstr (setState s m) SyncInstr.SYNC).active = selectDispatch m s.singleStepFlag
    ∧ activeTableCount s = 1 := by
  refine ⟨rfl, ?_, rfl, ?_⟩
  · intro hn
    exact runInstrs_active_no_sync instrs (setState s m) hn
  · cases h : s.active <;> simp [activeTableCount, h]

/-- Witness for C5 on a concrete state and SYNC-free sequence. -/
theorem setState_deferred_dispatch_witness :
    (runInstrs (setState capSMEx CapMode.STATE_RECORD)
        [SyncInstr.OTHER 1, SyncInstr.OTHER 2]).active = capSMEx.active
    ∧ (stepInstr (setState capSMEx CapMode.STATE_RECORD) SyncInstr.SYNC).active
        = selectDispatch CapMode.STATE_RECORD capSMEx.singleStepFlag
    ∧ activeTableCount capSMEx = 1 :=
  ⟨(setState_deferred_dispatch capSMEx CapMode.STATE_RECORD
      [SyncInstr.OTHER 1, SyncInstr.OTHER 2]).2.1 (by decide),
   (setState_deferred_dispatch capSMEx CapMode.STATE_RECORD
      [SyncInstr.OTHER 1, SyncInstr.OTHER 2]).2.2.1,
   (setState_deferred_dispatch capSMEx CapMode.STATE_RECORD
      [SyncInstr.OTHER 1, SyncInstr.OTHER 2]).2.2.2⟩

/-- C2: on fresh counters with threshold `t`, each of the first `t`
arrivals at an anchor under pure interpretation increments the tally
without triggering, and the arrival after the `t`-th increment starts
recording; outside `STATE_INTERP` arrivals neither count nor trigger;
and the default configured threshold is 7. -/
theorem hot_counter_threshold_triggers (a t : Nat) :
    (∀ k, k < t →
      (arrivalAt (arrivalsN (HotCounters.freshHC t) a k) CapMode.STATE_INTERP a).2 = false)
    ∧ (arrivalAt (arrivalsN (HotCounters.freshHC t) a t) CapMode.STATE_INTERP a).2 = true
    ∧ (∀ hc : HotCounters,
        (arrivalAt hc CapMode.STATE_RECORD a).1 = hc
        ∧ (arrivalAt hc CapMode.STATE_RECORD a).2 = false)
    ∧ HOT_SIDE_EXIT_THRESHOLD = 7 := by
  refine ⟨?_, ?_, ?_, rfl⟩
  · intro k hk
    obtain ⟨hth, hcnt⟩ := arrivalsN_counts t a k (Nat.le_of_lt hk)
    simp only [arrivalAt]
    rw [hth, hcnt, if_neg (Nat.not_le.mpr hk)]
  · obtain ⟨hth, hcnt⟩ := arrivalsN_counts t a t (Nat.le_refl t)
    simp only [arrivalAt]
    rw [hth, hcnt, if_pos (Nat.le_refl t)]
  · intro hc
    exact ⟨rfl, rfl⟩

/-- Witness for C2 at anchor 0 with the default threshold 7. -/
theorem hot_counter_threshold_triggers_witness :
    (arrivalAt (arrivalsN (HotCounters.freshHC 7) 0 3) CapMode.STATE_INTERP 0).2 = false
    ∧ (arrivalAt (arrivalsN (HotCounters.freshHC 7) 0 7) CapMode.STATE_INTERP 0).2 = true :=
  ⟨(hot_counter_threshold_triggers 0 7).1 3 (by decide),
   (hot_counter_threshold_triggers 0 7).2.1⟩

/-- C6: every completed recording episode ends in exactly one of two
ways — a closed trace, in which case the recorded fragment is installed
at the anchor and the counters are untouched, or an abort on an
unrecordable instruction, in which case no fragment is installed (the
Jit's fragment map is exactly as before) and the anchor's hot counter is
reset to zero. -/
theorem recording_episode_dichotomy (js : JitState) (anchor : Nat) (instrs : List RInstr)
    (out : RecOutcome) (js2 : JitState)
    (h : recordEpisode js anchor instrs = some (out, js2)) :
    (∃ tr, out = RecOutcome.closedTrace tr
        ∧ js2.fragments anchor = some tr
        ∧ js2.counters = js.counters)
    ∨ (out = RecOutcome.aborted
        ∧ js2.fragments = js.fragments
        ∧ js2.counters anchor = 0) := by
  unfold recordEpisode at h
  cases hrec : recordLoop anchor [] instrs with
  | none =>
    rw [hrec] at h
    cases h
  | some o =>
    rw [hrec] at h
    cases o with
    | closedTrace tr =>
      have h2 := Option.some.inj h
      rw [Prod.mk.injEq] at h2
      obtain ⟨ho, hj⟩ := h2
      subst ho
      subst hj
      left
      refine ⟨tr, rfl, ?_, rfl⟩
      simp [installFragment]
    | aborted =>
      have h2 := Option.some.inj h
      rw [Prod.mk.injEq] at h2
      obtain ⟨ho, hj⟩ := h2
      subst ho
      subst hj
      right
      refine ⟨rfl, rfl, ?_⟩
      simp [resetCounter]

/-- Witness for C6: a concrete loop body closing at its anchor. -/
theorem recording_episode_dichotomy_witness :
    (∃ tr, RecOutcome.closedTrace [RInstr.simple 1, RInstr.branchTo 0]
            = RecOutcome.closedTrace tr
        ∧ (installFragment jitStateEx 0 [RInstr.simple 1, RInstr.branchTo 0]).fragments 0
            = some tr
        ∧ (installFragment jitStateEx 0 [RInstr.simple 1, RInstr.branchTo 0]).counters
            = jitStateEx.counters)
    ∨ (RecOutcome.closedTrace [RInstr.simple 1, RInstr.branchTo 0] = RecOutcome.aborted
        ∧ (installFragment jitStateEx 0 [RInstr.simple 1, RInstr.branchTo 0]).fragments
            = jitStateEx.fragments
        ∧ (installFragment jitStateEx 0 [RInstr.simple 1, RInstr.branchTo 0]).counters 0
            = 0) :=
  recording_episode_dichotomy jitStateEx 0 [RInstr.simple 1, RInstr.branchTo 0]
    (RecOutcome.closedTrace [RInstr.simple 1, RInstr.branchTo 0])
    (installFragment jitStateEx 0 [RInstr.simple 1, RInstr.branchTo 0]) rfl

/-- C9: forcing a thunk computes its value once, updates the closure in
place to an indirection to the result (its header now has the
indirection flag), and forcing it again returns the same value with no
further computation — the computation runs exactly once over the two
forcings. -/
theorem thunk_forced_once (h : Nat → EvalCell) (a v : Nat)
    (hth : h a = EvalCell.thunkCell v) :
    (force h a).result = v
    ∧ (force (force h a).heapAfter a).result = v
    ∧ (force h a).computations = 1
    ∧ (force (force h a).heapAfter a).computations = 0
    ∧ (force h a).computations + (force (force h a).heapAfter a).computations = 1
    ∧ (force h a).heapAfter a = EvalCell.indCell v
    ∧ (closureFlags (cellType ((force h a).heapAfter a)) &&& CF_IND != 0) = true
    ∧ (force (force h a).heapAfter a).heapAfter a = EvalCell.indCell v := by
  have hcell : setCell h a (EvalCell.indCell v) a = EvalCell.indCell v := by
    simp [setCell]
  have h1 : force h a
      = { heapAfter := setCell h a (EvalCell.indCell v), result := v, computations := 1 } :=
    force_eq_thunk h a v hth
  have h2 : force (setCell h a (EvalCell.indCell v)) a
      = { heapAfter := setCell h a (EvalCell.indCell v), result := v, computations := 0 } :=
    force_eq_ind (setCell h a (EvalCell.indCell v)) a v hcell
  refine ⟨?_, ?_, ?_, ?_, ?_, ?_, ?_, ?_⟩
  · rw [h1]
  · rw [h1]
    show (force (setCell h a (EvalCell.indCell v)) a).result = v
    rw [h2]
  · rw [h1]
  · rw [h1]
    show (force (setCell h a (EvalCell.indCell v)) a).computations = 0
    rw [h2]
  · rw [h1]
    show 1 + (force (setCell h a (EvalCell.indCell v)) a).computations = 1
    rw [h2]
    rfl
  · rw [h1]
    exact hcell
  · rw [h1]
    show (closureFlags (cellType (setCell h a (EvalCell.indCell v) a)) &&& CF_IND != 0) = true
    rw [hcell]
    show (closureFlags ClosureType.IND &&& CF_IND != 0) = true
    decide
  · rw [h1]
    show (force (setCell h a (EvalCell.indCell v)) a).heapAfter a = EvalCell.indCell v
    rw [h2]
    exact hcell

/-- Witness for C9 on a concrete thunk heap. -/
theorem thunk_forced_once_witness :
    (force thunkHeapEx 0).result = 42
    ∧ (force (force thunkHeapEx 0).heapAfter 0).result = 42
    ∧ (force thunkHeapEx 0).computations
        + (force (force thunkHeapEx 0).heapAfter 0).computations = 1 :=
  ⟨(thunk_forced_once thunkHeapEx 0 42 rfl).1,
   (thunk_forced_once thunkHeapEx 0 42 rfl).2.1,
   (thunk_forced_once thunkHeapEx 0 42 rfl).2.2.2.2.1⟩

end Lambdachine
